import Mathlib

/-!
Verification of the endstone `rank_system` plugin
(`src/rank_system/src/endstone_rank_system/rank_system.py`).

Python dictionaries are modelled as insertion-ordered association lists
(`dGet` / `dSet` mirror `dict.get` / item assignment), JSON documents as the
inductive `JsonVal`, and each method of the `RankSystem` class as an explicit
Lean function over a `GameState` record, returning the successor state together
with a trace of the external effects the method performs (`Eff`).
-/

namespace RankSystem

/-- Model of `dict.get(key)`: first binding for `key` in an insertion-ordered
association list (Python dicts never hold duplicate keys). -/
def dGet {α : Type} : List (String × α) → String → Option α
  | [], _ => none
  | (k, v) :: rest, key => if k = key then some v else dGet rest key

/-- Model of `dict[key] = value`: replace the binding in place if the key exists
(keeping its insertion position, as Python does), otherwise append. -/
def dSet {α : Type} : List (String × α) → String → α → List (String × α)
  | [], key, value => [(key, value)]
  | (k, v) :: rest, key, value =>
      if k = key then (key, value) :: rest else (k, v) :: dSet rest key value

/-- JSON documents, as produced by Python's `json.load` / consumed by
`json.dump`.  Objects are insertion-ordered association lists. -/
inductive JsonVal where
  | jnull : JsonVal
  | jbool : Bool → JsonVal
  | jnum : Int → JsonVal
  | jstr : String → JsonVal
  | jarr : List JsonVal → JsonVal
  | jobj : List (String × JsonVal) → JsonVal

/-- The plugin's in-memory persisted state: `self._selected` and `self._ranks`.
Values are arbitrary JSON data because Python performs no coercion on load. -/
structure StoreD where
  selected : List (String × JsonVal)
  ranks : List (String × List (String × JsonVal))

/-- Model of `data.get(key, default)`: only dictionaries have a `.get` attribute; every
other value raises `AttributeError`, which `on_enable` does not catch. -/
def dict_get_attr (data : JsonVal) (key : String) (default : JsonVal) :
    Except String JsonVal :=
  match data with
  | .jobj fields => .ok ((dGet fields key).getD default)
  | _ => .error "AttributeError"

/-- Model of `.items()` on a value: succeeds only for dictionaries. -/
def j_items (v : JsonVal) : Except String (List (String × JsonVal)) :=
  match v with
  | .jobj fields => .ok fields
  | _ => .error "AttributeError"

/-- The inner comprehension of `on_enable`:
`{str(k): {stat: name for stat, name in v.items()} for k, v in ....items()}`.
Each `v` must itself be a dictionary. -/
def load_ranks_values :
    List (String × JsonVal) →
      Except String (List (String × List (String × JsonVal)))
  | [] => .ok []
  | (k, v) :: rest =>
      match j_items v with
      | .error e => .error e
      | .ok inner =>
          match load_ranks_values rest with
          | .error e => .error e
          | .ok tail => .ok ((k, inner) :: tail)

/-- What the persistence source can present to `on_enable`: no file, a file
whose content is not valid JSON (`json.load` raises `JSONDecodeError`), or a
parsed JSON document. -/
inductive FileContent where
  | missing : FileContent
  | unparsable : String → FileContent
  | parsed : JsonVal → FileContent

/-- The load half of `on_enable` (lines 118-133).  Returns `.ok (warned, store)`
when the method completes (`warned` records the `logger.warning` call in the
`except json.JSONDecodeError` arm), and `.error` when an exception other than
`JSONDecodeError` escapes the method. -/
def on_enable_load (fc : FileContent) : Except String (Bool × StoreD) :=
  match fc with
  | .missing => .ok (false, ⟨[], []⟩)
  | .unparsable _ => .ok (true, ⟨[], []⟩)
  | .parsed data =>
      match dict_get_attr data "selected" (.jobj []) with
      | .error e => .error e
      | .ok selObj =>
          match j_items selObj with
          | .error e => .error e
          | .ok sel =>
              match dict_get_attr data "ranks" (.jobj []) with
              | .error e => .error e
              | .ok ranksObj =>
                  match j_items ranksObj with
                  | .error e => .error e
                  | .ok ranksPairs =>
                      match load_ranks_values ranksPairs with
                      | .error e => .error e
                      | .ok ranks => .ok (false, ⟨sel, ranks⟩)

/-- The JSON document written by `on_disable` (lines 147-153):
`{"selected": {...}, "ranks": {...}}` with the store's contents dumped as-is. -/
def on_disable_data (s : StoreD) : JsonVal :=
  .jobj [("selected", .jobj s.selected),
         ("ranks", .jobj (s.ranks.map (fun p => (p.1, .jobj p.2))))]

/-- The table `RankSystem.RANKS` (lines 65-81). -/
def RANKS : List (String × List (Nat × String)) :=
  [("mob_kills",
      [(0, "§aHunter"), (20, "§9Slayer"), (100, "§dBeastmaster")]),
   ("player_kills",
      [(0, "§aFighter"), (15, "§9Warrior"), (50, "§dChampion")]),
   ("ores_mined",
      [(0, "§aMiner"), (100, "§9Excavator"), (500, "§dProspector")])]

/-- The constant `RankSystem.NEWBIE_TAG` (line 23). -/
def NEWBIE_TAG : String := "§7Newbie"

/-- The `for threshold, name in tiers` loop of `_get_rank_name`
(lines 158-162): keep updating `rank` while `value >= threshold`, stop at the
first failing threshold (`break`). -/
def get_rank_go (value : Nat) : List (Nat × String) → String → String
  | [], rank => rank
  | (threshold, name) :: rest, rank =>
      if value ≥ threshold then get_rank_go value rest name else rank

/-- Core of `_get_rank_name` acting on an explicit tier table (lines 155-163):
`rank = tiers[0][1] if tiers else ""`, then the threshold loop. -/
def get_rank_name_t (tiers : List (Nat × String)) (value : Nat) : String :=
  get_rank_go value tiers (match tiers with | [] => "" | t :: _ => t.2)

/-- Resolver `_get_rank_name` over an arbitrary rank table
(`tiers = table.get(obj_name, [])`). -/
def get_rank_name_with (table : List (String × List (Nat × String)))
    (obj_name : String) (value : Nat) : String :=
  get_rank_name_t ((dGet table obj_name).getD []) value

/-- Method `RankSystem._get_rank_name` (lines 155-163). -/
def get_rank_name (obj_name : String) (value : Nat) : String :=
  get_rank_name_with RANKS obj_name value

/-- One-based index of the tier the resolver settles on: the length of the
longest prefix of the table whose thresholds are all `≤ value`. -/
def resolved_idx (tiers : List (Nat × String)) (value : Nat) : Nat :=
  (tiers.takeWhile (fun t => decide (t.1 ≤ value))).length

/-- A scoreboard entry (`sb.entries`): either a `Player`, carrying its string
UUID and display name, or some other tracked entity. -/
inductive SbEntry where
  | player : String → String → SbEntry
  | other : String → SbEntry
deriving DecidableEq

/-- The state the plugin's handlers read and write: the two persisted dicts,
plus the external scoreboard collaborator (raw counts keyed by stat name and
entry identifier, the tracked entries, and the online players as
(uuid, name) pairs). -/
structure GameState where
  selected : List (String × String)
  ranks : List (String × List (String × String))
  score : String → String → Nat
  entries : List SbEntry
  online : List (String × String)

/-- Externally observable effects of a handler, in program order. -/
inductive Eff where
  | commitLabel : String → String → String → Eff
  | rewardItem : String → Nat → Eff
  | rewardEffect : String → Nat → Nat → Eff
  | logException : Eff
  | broadcast : String → Eff
  | title : String → String → String → Eff
  | nameTag : String → String → Eff
  | message : String → String → Eff
  | writeFile : JsonVal → Eff

/-- The reward dispatch of `_apply_rank_benefits` (lines 229-277): the external
inventory/effect calls made inside the `try` block for a given (rank, stat),
paired with the `reward` description string. -/
def benefit_actions (rank_name stat : String) : List Eff × String :=
  if stat = "mob_kills" then
    if rank_name.endsWith "Hunter" then
      ([Eff.rewardItem "minecraft:bread" 32], "32x minecraft:bread")
    else if rank_name.endsWith "Slayer" then
      ([Eff.rewardItem "minecraft:cooked_beef" 32], "32x minecraft:cooked_beef")
    else if rank_name.endsWith "Beastmaster" then
      ([Eff.rewardItem "minecraft:golden_apple" 2], "2x minecraft:golden_apple")
    else ([], "")
  else if stat = "player_kills" then
    if rank_name.endsWith "Fighter" then
      ([Eff.rewardItem "minecraft:leather_helmet" 1,
        Eff.rewardItem "minecraft:leather_chestplate" 1,
        Eff.rewardItem "minecraft:leather_leggings" 1,
        Eff.rewardItem "minecraft:leather_boots" 1],
       "a full set of Leather Armor")
    else if rank_name.endsWith "Warrior" then
      ([Eff.rewardItem "minecraft:iron_helmet" 1,
        Eff.rewardItem "minecraft:iron_chestplate" 1,
        Eff.rewardItem "minecraft:iron_leggings" 1,
        Eff.rewardItem "minecraft:iron_boots" 1],
       "a full set of Iron Armor")
    else if rank_name.endsWith "Champion" then
      ([Eff.rewardItem "minecraft:diamond_helmet" 1,
        Eff.rewardItem "minecraft:diamond_chestplate" 1,
        Eff.rewardItem "minecraft:diamond_leggings" 1,
        Eff.rewardItem "minecraft:diamond_boots" 1],
       "a full set of Diamond Armor")
    else ([], "")
  else if stat = "ores_mined" then
    if rank_name.endsWith "Miner" then
      ([Eff.rewardEffect "minecraft:haste" 1000000 0], "permanent Haste I")
    else if rank_name.endsWith "Excavator" then
      ([Eff.rewardEffect "minecraft:haste" 1000000 1], "permanent Haste II")
    else if rank_name.endsWith "Prospector" then
      ([Eff.rewardEffect "minecraft:night_vision" 1000000 0],
       "permanent Night Vision")
    else ([], "")
  else ([], "")

/-- Method `RankSystem._apply_rank_benefits` (lines 225-283).  The whole body sits in
a `try` whose `except Exception` arm only calls `logger.exception`, so the
method always returns normally — its Lean type is a plain effect trace, never
an error.  `reward_fails` models the external inventory/effect collaborator
raising at its first call, in which case the rest of the `try` body is skipped
and the exception is logged. -/
def apply_rank_benefits (reward_fails : Bool) (pname rank_name stat : String) :
    List Eff :=
  let acts := benefit_actions rank_name stat
  if reward_fails then [Eff.logException]
  else
    acts.1 ++
      (if acts.2 ≠ "" then
        [Eff.message pname
          ("§a[RankSystem] You earned the [" ++ rank_name ++
            "] rank and received " ++ acts.2 ++ "!")]
      else [])

/-- The label `_set_display_rank` (lines 188-200) computes: the Newbie sentinel
unless the selected stat's raw count is positive and a label is cached
(`if score > 0 and stat in ranks`). -/
def display_rank_name (st : GameState) (uid : String) : String :=
  let stat := (dGet st.selected uid).getD "mob_kills"
  let scoreVal := st.score stat uid
  let playerRanks := (dGet st.ranks uid).getD []
  if scoreVal > 0 then (dGet playerRanks stat).getD NEWBIE_TAG else NEWBIE_TAG

/-- Method `RankSystem._set_display_rank` (lines 188-200): its single effect, the
name-tag assignment. -/
def set_display_rank_eff (st : GameState) (uid pname : String) : Eff :=
  Eff.nameTag pname ("[" ++ display_rank_name st uid ++ "§r] §f" ++ pname)

/-- Method `RankSystem._update_stat` (lines 165-186), over an arbitrary rank table so
that the spec's example tier tables can be exercised too.  Returns the
successor state and the effect trace in program order: the in-memory commit
`ranks[stat] = rank_name` (line 175) strictly precedes the promotion branch's
reward / broadcast / title calls (lines 177-182) and the display refresh
(lines 184-186). -/
def update_stat_t (table : List (String × List (Nat × String)))
    (reward_fails : Bool) (st : GameState) (uid pname stat : String) :
    GameState × List Eff :=
  let scoreVal := st.score stat uid
  let rank_name := get_rank_name_with table stat scoreVal
  let playerRanks := (dGet st.ranks uid).getD []
  let old_rank := dGet playerRanks stat
  let st' : GameState := { st with ranks := dSet st.ranks uid (dSet playerRanks stat rank_name) }
  let promoTrace :=
    if old_rank ≠ some rank_name then
      apply_rank_benefits reward_fails pname rank_name stat ++
        [Eff.broadcast (pname ++ " has been promoted to " ++ rank_name ++ "!"),
         Eff.title pname "Rank Up!" ("You are now " ++ rank_name)]
    else []
  let displayTrace :=
    if dGet st'.selected uid = some stat then [set_display_rank_eff st' uid pname]
    else []
  (st', Eff.commitLabel uid stat rank_name :: promoTrace ++ displayTrace)

/-- Method `RankSystem._update_stat` with the plugin's own `RANKS` table. -/
def update_stat (reward_fails : Bool) (st : GameState)
    (uid pname stat : String) : GameState × List Eff :=
  update_stat_t RANKS reward_fails st uid pname stat

/-- Number of `Promoted` events observable in a trace: each promotion emits
exactly one server-wide broadcast (line 179), and nothing else broadcasts. -/
def promoted_count (tr : List Eff) : Nat :=
  tr.countP (fun e => match e with | Eff.broadcast _ => true | _ => false)

/-- The chat prefix computed by `on_player_chat` (lines 339-354): Newbie when
all three raw counts are zero, otherwise the cached label of the selected stat
(Newbie when absent). -/
def on_player_chat_rank (st : GameState) (uid : String) : String :=
  let values := [st.score "mob_kills" uid, st.score "player_kills" uid,
    st.score "ores_mined" uid]
  if values.all (fun v => v = 0) then NEWBIE_TAG
  else
    let stat := (dGet st.selected uid).getD "mob_kills"
    (dGet ((dGet st.ranks uid).getD []) stat).getD NEWBIE_TAG

/-- The rewritten chat line of `on_player_chat` (line 354). -/
def on_player_chat_message (st : GameState) (uid pname original : String) :
    String :=
  "[" ++ on_player_chat_rank st uid ++ "§r] §f" ++ pname ++ ": " ++ original

/-- One iteration of the back-fill loop of `on_player_join` (lines 333-337):
`if stat not in ranks` and the raw count is positive, run `_update_stat`,
otherwise leave state and trace alone. -/
def join_step (rf : Bool) (uid pname : String) (acc : GameState × List Eff)
    (stat : String) : GameState × List Eff :=
  if (dGet ((dGet acc.1.ranks uid).getD []) stat) = none ∧
      acc.1.score stat uid > 0 then
    let r := update_stat rf acc.1 uid pname stat
    (r.1, acc.2 ++ r.2)
  else acc

/-- Lines 319-320 of `on_player_join`:
`if uid not in self._selected: self._selected[uid] = "mob_kills"`. -/
def join_select (st : GameState) (uid : String) : GameState :=
  if (dGet st.selected uid).isSome then st
  else { st with selected := dSet st.selected uid "mob_kills" }

/-- Line 332 of `on_player_join`: `ranks = self._ranks.setdefault(uid, {})`. -/
def join_ranksdef (st : GameState) (uid : String) : GameState :=
  if (dGet st.ranks uid).isSome then st
  else { st with ranks := dSet st.ranks uid [] }

/-- Method `RankSystem.on_player_join` (lines 314-337): default the selected stat,
refresh the name tag, send the welcome hint when all three counts are zero,
ensure a ranks record exists, then back-fill every configured stat that has a
positive count but no cached label. -/
def on_player_join (rf : Bool) (st : GameState) (uid pname : String) :
    GameState × List Eff :=
  let st1 := join_select st uid
  let displayEff := set_display_rank_eff st1 uid pname
  let values := [st1.score "mob_kills" uid, st1.score "player_kills" uid,
    st1.score "ores_mined" uid]
  let welcome :=
    if values.all (fun v => v = 0) then
      [Eff.message pname "§6§l[SERVER] §r§6To access ranks type /rank"]
    else []
  let st2 := join_ranksdef st1 uid
  let res := ["mob_kills", "player_kills", "ores_mined"].foldl
    (join_step rf uid pname) (st2, [])
  (res.1, displayEff :: welcome ++ res.2)

/-- The key by which the scoreboard stores an entry's scores. -/
def SbEntry.key : SbEntry → String
  | .player uid _ => uid
  | .other ident => ident

/-- Model of `sb.reset_scores(entry)` applied to each tracked entry in turn
(lines 452-453): afterwards every objective reads 0 for that entry. -/
def reset_entry_scores (score : String → String → Nat) (e : SbEntry) :
    String → String → Nat :=
  fun stat uid => if uid = e.key then 0 else score stat uid

/-- The `resetranks` branch of `on_command` (lines 436-460).  Returns the new
state, the effect trace, and the handler's boolean result.  `data_file_set`
models `self._data_file is not None` (it is set in `on_enable`). -/
def on_command_resetranks (has_perm data_file_set : Bool) (st : GameState)
    (pname : String) : GameState × List Eff × Bool :=
  if ¬has_perm then
    (st, [Eff.message pname "You do not have permission to use this command."],
     true)
  else
    let st1 : GameState := { st with ranks := [], selected := [] }
    let writeTrace :=
      if data_file_set then
        [Eff.writeFile (.jobj [("selected", .jobj []), ("ranks", .jobj [])])]
      else []
    let st2 : GameState :=
      { st1 with score := st1.entries.foldl reset_entry_scores st1.score }
    let tagTrace := st2.online.map (fun p => set_display_rank_eff st2 p.1 p.2)
    (st2, writeTrace ++ tagTrace ++
      [Eff.message pname "All ranks have been reset."], true)

/-- Stable insertion used to model `list.sort(key=lambda t: t[1],
reverse=True)` (line 213): Python's sort is stable, so an element moves past
another only when its count is strictly larger. -/
def insert_desc (x : (String × String) × Nat) :
    List ((String × String) × Nat) → List ((String × String) × Nat)
  | [] => [x]
  | q :: rest => if q.2 > x.2 then q :: insert_desc x rest else x :: q :: rest

/-- Stable descending sort by count (earlier elements stay ahead of later
elements with an equal count). -/
def sort_desc : List ((String × String) × Nat) → List ((String × String) × Nat)
  | [] => []
  | x :: rest => insert_desc x (sort_desc rest)

/-- The filter loop of `_leaderboard_lines` (lines 206-211): the scoreboard's
`Player` entries in enumeration order, paired with their raw count for `stat`,
keeping only strictly positive counts. -/
def leaderboard_scored (st : GameState) (stat : String) :
    List ((String × String) × Nat) :=
  st.entries.filterMap (fun e =>
    match e with
    | SbEntry.player uid pname =>
        if st.score stat uid > 0 then some ((uid, pname), st.score stat uid)
        else none
    | SbEntry.other _ => none)

/-- Truncation `scores.sort(...); scores[:5]` (lines 213-215). -/
def leaderboard_top (st : GameState) (stat : String) :
    List ((String × String) × Nat) :=
  (sort_desc (leaderboard_scored st stat)).take 5

/-- One formatted leaderboard line (lines 215-219). -/
def leaderboard_line (st : GameState) (i : Nat)
    (entry : (String × String) × Nat) : String :=
  let uid := entry.1.1
  let selectedStat := (dGet st.selected uid).getD "mob_kills"
  let labelShown :=
    (dGet ((dGet st.ranks uid).getD []) selectedStat).getD NEWBIE_TAG
  toString (i + 1) ++ ". [" ++ labelShown ++ "§r] " ++ entry.1.2 ++ " - " ++
    toString entry.2

/-- Method `RankSystem._leaderboard_lines` (lines 202-223). -/
def leaderboard_lines (st : GameState) (stat : String) : List String :=
  let lines := (leaderboard_top st stat).enum.map
    (fun p => leaderboard_line st p.1 p.2)
  if lines = [] then ["No data yet."] else lines

/-- The spec's example tier table for claim C2:
`[(0, "Hunter"), (10, "Slayer"), (50, "Beastmaster")]` on a single stat. -/
def hunt_table : List (String × List (Nat × String)) :=
  [("kills", [(0, "Hunter"), (10, "Slayer"), (50, "Beastmaster")])]

/-- One "record progress" step of claim C2's scenario: the external counter for
`stat` now reads `c`, and `_update_stat` runs for the player. -/
def record_at (table : List (String × List (Nat × String))) (st : GameState)
    (uid pname stat : String) (c : Nat) : GameState × List Eff :=
  update_stat_t table false
    { st with score := fun s u => if s = stat ∧ u = uid then c else st.score s u }
    uid pname stat

/-- Record progress at each count of `counts` in turn, concatenating the effect
traces. -/
def run_counts (table : List (String × List (Nat × String))) (st : GameState)
    (uid pname stat : String) : List Nat → GameState × List Eff
  | [] => (st, [])
  | c :: rest =>
      let r := record_at table st uid pname stat c
      let r2 := run_counts table r.1 uid pname stat rest
      (r2.1, r.2 ++ r2.2)

/-- The all-zero game state each concrete scenario starts from. -/
def empty_state : GameState :=
  { selected := [], ranks := [], score := fun _ _ => 0, entries := [],
    online := [] }

/-- Claim C2's scenario started from a record whose cached label for the stat
is already the tier label for count 9 ("Hunter"). -/
def cached_state : GameState :=
  { selected := [], ranks := [("p1", [("kills", "Hunter")])],
    score := fun _ _ => 0, entries := [], online := [] }

/-- Claim C3's scenario: the player selected `ores_mined`, its raw count is 0,
a label for it is cached (as `/rankup` produces), and `mob_kills` is 5. -/
def chat_state : GameState :=
  { selected := [("u1", "ores_mined")],
    ranks := [("u1", [("ores_mined", "§aMiner")])],
    score := fun stat uid => if stat = "mob_kills" ∧ uid = "u1" then 5 else 0,
    entries := [], online := [] }

/-- Claim C9's scenario: a joining player with 7 mob kills on the external
scoreboard but no cached label at all. -/
def join_state : GameState :=
  { selected := [], ranks := [],
    score := fun stat uid => if stat = "mob_kills" ∧ uid = "u1" then 7 else 0,
    entries := [], online := [] }

/-- Claim C10's scenario: one tracked player with nonzero raw counts and some
stored rank data. -/
def reset_state : GameState :=
  { selected := [("u1", "mob_kills")],
    ranks := [("u1", [("mob_kills", "§aHunter")])],
    score := fun _ _ => 3, entries := [SbEntry.player "u1" "Alice"],
    online := [] }

theorem dGet_dSet_self {α : Type} (m : List (String × α)) (k : String) (v : α) :
    dGet (dSet m k v) k = some v := by
  induction m with
  | nil => simp [dGet, dSet]
  | cons p rest ih =>
      by_cases h : p.1 = k
      · simp [dGet, dSet, h]
      · simp [dGet, dSet, h, ih]

theorem dGet_dSet_ne {α : Type} (m : List (String × α)) (k k' : String) (v : α)
    (h : k' ≠ k) : dGet (dSet m k v) k' = dGet m k' := by
  induction m with
  | nil => simp [dGet, dSet, Ne.symm h]
  | cons p rest ih =>
      obtain ⟨pk, pv⟩ := p
      by_cases hp : pk = k
      · simp [dGet, dSet, hp, Ne.symm h]
      · by_cases hp' : pk = k'
        · simp [dGet, dSet, hp, hp', h]
        · simp [dGet, dSet, hp, hp', ih]

/-- JSON documents, as produced by Python's `json.load` / consumed by
`json.dump`.  Objects are insertion-ordered association lists. -/
theorem get_rank_go_eq_takeWhile (value : Nat) (tiers : List (Nat × String))
    (rank : String) :
    get_rank_go value tiers rank =
      ((tiers.takeWhile (fun t => decide (t.1 ≤ value))).map Prod.snd).getLastD
        rank := by
  induction tiers generalizing rank with
  | nil => simp [get_rank_go]
  | cons t rest ih =>
      obtain ⟨thr, name⟩ := t
      by_cases h : thr ≤ value
      · have h1 : get_rank_go value ((thr, name) :: rest) rank
            = get_rank_go value rest name := by
          simp [get_rank_go, ge_iff_le, h]
        have h2 : List.takeWhile (fun t => decide (t.1 ≤ value))
              ((thr, name) :: rest)
            = (thr, name) :: List.takeWhile (fun t => decide (t.1 ≤ value))
                rest := by
          simp [List.takeWhile_cons, h]
        rw [h1, ih, h2, List.map_cons, List.getLastD_cons]
      · have h1 : get_rank_go value ((thr, name) :: rest) rank = rank := by
          simp [get_rank_go, ge_iff_le, h]
        have h2 : List.takeWhile (fun t => decide (t.1 ≤ value))
            ((thr, name) :: rest) = [] := by
          simp [List.takeWhile_cons, h]
        rw [h1, h2]
        rfl

theorem takeWhile_length_mono {α : Type} (p q : α → Bool)
    (h : ∀ x, p x = true → q x = true) (l : List α) :
    (l.takeWhile p).length ≤ (l.takeWhile q).length := by
  induction l with
  | nil => simp
  | cons x xs ih =>
      cases hp : p x with
      | false => simp [List.takeWhile_cons, hp]
      | true =>
          have hq := h x hp
          simp only [List.takeWhile_cons, hp, hq, if_true, List.length_cons]
          omega

theorem resolved_idx_mono (tiers : List (Nat × String)) (v w : Nat)
    (hvw : v ≤ w) : resolved_idx tiers v ≤ resolved_idx tiers w := by
  refine takeWhile_length_mono _ _ (fun t ht => ?_) tiers
  simp only [decide_eq_true_eq] at ht ⊢
  omega

theorem get_rank_name_t_three (t2 t3 : Nat) (a b c : String) (v : Nat) :
    get_rank_name_t [(0, a), (t2, b), (t3, c)] v =
      if t2 ≤ v then (if t3 ≤ v then c else b) else a := by
  simp [get_rank_name_t, get_rank_go, ge_iff_le, Nat.zero_le]

theorem resolved_idx_three (t2 t3 : Nat) (a b c : String) (v : Nat) :
    resolved_idx [(0, a), (t2, b), (t3, c)] v =
      if t2 ≤ v then (if t3 ≤ v then 3 else 2) else 1 := by
  by_cases h2 : t2 ≤ v <;> by_cases h3 : t3 ≤ v <;>
    simp [resolved_idx, List.takeWhile_cons, Nat.zero_le, h2, h3]

/-- The tier actually resolved for a three-tier table with strictly increasing
thresholds starting at 0: largest threshold `≤ v`, index bookkeeping. -/
theorem three_tier_resolve (t2 t3 : Nat) (a b c : String)
    (_h2 : 0 < t2) (h23 : t2 < t3) (v : Nat) :
    (∃ t, t ∈ [(0, a), (t2, b), (t3, c)] ∧ t.1 ≤ v ∧
        (∀ u ∈ [(0, a), (t2, b), (t3, c)], u.1 ≤ v → u.1 ≤ t.1) ∧
        get_rank_name_t [(0, a), (t2, b), (t3, c)] v = t.2) ∧
      1 ≤ resolved_idx [(0, a), (t2, b), (t3, c)] v ∧
      get_rank_name_t [(0, a), (t2, b), (t3, c)] v =
        (([(0, a), (t2, b), (t3, c)]).map Prod.snd).getD
          (resolved_idx [(0, a), (t2, b), (t3, c)] v - 1) "" := by
  by_cases hv2 : t2 ≤ v
  · by_cases hv3 : t3 ≤ v
    · refine ⟨⟨(t3, c), by simp, hv3, ?_, ?_⟩, ?_, ?_⟩
      · intro u hu _
        simp at hu
        rcases hu with h | h | h <;> subst h <;> simp <;> omega
      · simp [get_rank_name_t_three, hv2, hv3]
      · simp [resolved_idx_three, hv2, hv3]
      · simp [get_rank_name_t_three, resolved_idx_three, hv2, hv3]
    · refine ⟨⟨(t2, b), by simp, hv2, ?_, ?_⟩, ?_, ?_⟩
      · intro u hu huv
        simp at hu
        rcases hu with h | h | h <;> subst h <;> simp <;> omega
      · simp [get_rank_name_t_three, hv2, hv3]
      · simp [resolved_idx_three, hv2, hv3]
      · simp [get_rank_name_t_three, resolved_idx_three, hv2, hv3]
  · refine ⟨⟨(0, a), by simp, Nat.zero_le v, ?_, ?_⟩, ?_, ?_⟩
    · intro u hu huv
      simp at hu
      rcases hu with h | h | h <;> subst h <;> simp <;> omega
    · simp [get_rank_name_t_three, hv2]
    · simp [resolved_idx_three, hv2]
    · simp [get_rank_name_t_three, resolved_idx_three, hv2]

theorem countP_apply_rank_benefits (rf : Bool) (p r s : String) :
    List.countP (fun e => match e with | Eff.broadcast _ => true | _ => false)
      (apply_rank_benefits rf p r s) = 0 := by
  unfold apply_rank_benefits benefit_actions
  split_ifs <;> rfl

theorem update_stat_t_fst (table : List (String × List (Nat × String)))
    (rf : Bool) (st : GameState) (uid pname stat : String) :
    (update_stat_t table rf st uid pname stat).1 =
      { st with
        ranks := dSet st.ranks uid
          (dSet ((dGet st.ranks uid).getD []) stat
            (get_rank_name_with table stat (st.score stat uid))) } := rfl

theorem promoted_count_update_stat_t
    (table : List (String × List (Nat × String))) (rf : Bool) (st : GameState)
    (uid pname stat : String) :
    promoted_count (update_stat_t table rf st uid pname stat).2 =
      (if dGet ((dGet st.ranks uid).getD []) stat =
          some (get_rank_name_with table stat (st.score stat uid)) then 0
       else 1) := by
  unfold update_stat_t promoted_count
  by_cases h : dGet ((dGet st.ranks uid).getD []) stat =
      some (get_rank_name_with table stat (st.score stat uid)) <;>
    by_cases hsel : dGet st.selected uid = some stat <;>
      simp [h, hsel, set_display_rank_eff, List.countP_cons,
        List.countP_append, countP_apply_rank_benefits]

theorem load_ranks_values_save (l : List (String × List (String × JsonVal))) :
    load_ranks_values (l.map (fun p => (p.1, JsonVal.jobj p.2))) = .ok l := by
  induction l with
  | nil => rfl
  | cons p rest ih => simp [load_ranks_values, j_items, ih]

/-- C1: for every configured stat and every count ≥ 0, `_get_rank_name`
returns the label of the tier with the largest threshold ≤ count; the resolved
tier's index is monotone non-decreasing in the count; and the resolver is a
pure function, so repeated calls with the same count return the same label. -/
theorem C1_tier_resolver (stat : String) (tiers : List (Nat × String))
    (h : dGet RANKS stat = some tiers) (v : Nat) :
    (∃ t, t ∈ tiers ∧ t.1 ≤ v ∧
        (∀ u ∈ tiers, u.1 ≤ v → u.1 ≤ t.1) ∧ get_rank_name stat v = t.2) ∧
      1 ≤ resolved_idx tiers v ∧
      get_rank_name stat v =
        (tiers.map Prod.snd).getD (resolved_idx tiers v - 1) "" ∧
      (∀ w, v ≤ w → resolved_idx tiers v ≤ resolved_idx tiers w) ∧
      get_rank_name stat v = get_rank_name stat v := by
  by_cases h1 : "mob_kills" = stat
  · subst h1
    rw [show dGet RANKS "mob_kills" =
        some [(0, "§aHunter"), (20, "§9Slayer"), (100, "§dBeastmaster")]
      from rfl] at h
    injection h with h
    subst h
    obtain ⟨he, hidx, hval⟩ :=
      three_tier_resolve 20 100 "§aHunter" "§9Slayer" "§dBeastmaster"
        (by omega) (by omega) v
    exact ⟨he, hidx, hval, fun w hw => resolved_idx_mono _ v w hw, rfl⟩
  · by_cases h2 : "player_kills" = stat
    · subst h2
      rw [show dGet RANKS "player_kills" =
          some [(0, "§aFighter"), (15, "§9Warrior"), (50, "§dChampion")]
        from rfl] at h
      injection h with h
      subst h
      obtain ⟨he, hidx, hval⟩ :=
        three_tier_resolve 15 50 "§aFighter" "§9Warrior" "§dChampion"
          (by omega) (by omega) v
      exact ⟨he, hidx, hval, fun w hw => resolved_idx_mono _ v w hw, rfl⟩
    · by_cases h3 : "ores_mined" = stat
      · subst h3
        rw [show dGet RANKS "ores_mined" =
            some [(0, "§aMiner"), (100, "§9Excavator"), (500, "§dProspector")]
          from rfl] at h
        injection h with h
        subst h
        obtain ⟨he, hidx, hval⟩ :=
          three_tier_resolve 100 500 "§aMiner" "§9Excavator" "§dProspector"
            (by omega) (by omega) v
        exact ⟨he, hidx, hval, fun w hw => resolved_idx_mono _ v w hw, rfl⟩
      · simp [RANKS, dGet, h1, h2, h3] at h

/-- Witness for C1 at a concrete input: the mob-kills table, counts 25 ≤ 150. -/
theorem C1_tier_resolver_witness :
    resolved_idx [(0, "§aHunter"), (20, "§9Slayer"), (100, "§dBeastmaster")]
        25 ≤
      resolved_idx [(0, "§aHunter"), (20, "§9Slayer"), (100, "§dBeastmaster")]
        150 :=
  (C1_tier_resolver "mob_kills"
      [(0, "§aHunter"), (20, "§9Slayer"), (100, "§dBeastmaster")]
      (by decide) 25).2.2.2.1 150 (by decide)

/-- C2 counterexample: with the spec's tier table
`[(0,"Hunter"),(10,"Slayer"),(50,"Beastmaster")]` and a fresh player record,
recording progress at counts 9, 9, 10 produces TWO `Promoted` events (one on
the very first recording, unset → "Hunter", and one on the transition to 10),
not exactly one as the claim states. -/
theorem C2_counterexample :
    promoted_count
      (run_counts hunt_table empty_state "p1" "PlayerOne" "kills"
        [9, 9, 10]).2 = 2 := by
  rfl

/-- C2 amended: `_update_stat` fires exactly one `Promoted` event when the
freshly resolved label differs from the cached one (the absent cache counts as
different, so a fresh player's first recording also fires) and none when they
are equal; consequently, recording at counts 9, 9, 10 from a record whose
cached label is already the count-9 label "Hunter" yields exactly one
`Promoted` event, and it happens on the transition to 10 (the first two
recordings yield none). -/
theorem C2_amended :
    (∀ (table : List (String × List (Nat × String))) (rf : Bool)
        (st : GameState) (uid pname stat : String),
      promoted_count (update_stat_t table rf st uid pname stat).2 =
        if dGet ((dGet st.ranks uid).getD []) stat =
            some (get_rank_name_with table stat (st.score stat uid)) then 0
        else 1) ∧
      promoted_count
        (run_counts hunt_table cached_state "p1" "PlayerOne" "kills"
          [9, 9, 10]).2 = 1 ∧
      promoted_count
        (run_counts hunt_table cached_state "p1" "PlayerOne" "kills"
          [9, 9]).2 = 0 :=
  ⟨fun table rf st uid pname stat =>
    promoted_count_update_stat_t table rf st uid pname stat, rfl, rfl⟩

/-- C4 counterexample: a source whose content is the valid JSON document `[]`
parses fine, but `data.get("selected", {})` then raises `AttributeError`,
which `on_enable` does not catch — load does raise to its caller for this
content, so the claim's "for every possible content" fails. -/
theorem C4_counterexample :
    on_enable_load (.parsed (.jarr [])) = .error "AttributeError" := rfl

/-- C4 amended: loading from a missing source yields an empty store, and
loading from a source whose content fails to parse as JSON yields an empty
store plus a logged recoverable warning; however, content that parses as JSON
but is not shaped as the expected object raises an uncaught error. -/
theorem C4_amended :
    on_enable_load .missing = .ok (false, ⟨[], []⟩) ∧
      ∀ raw : String, on_enable_load (.unparsable raw) = .ok (true, ⟨[], []⟩) :=
  ⟨rfl, fun _ => rfl⟩

/-- C5 counterexample: for a stat name outside the configured table,
`_get_rank_name` silently returns the empty-string label; no error of any kind
is raised (the function is total), contradicting the claimed
`ConfigurationError`. -/
theorem C5_counterexample :
    get_rank_name "bogus_stat" 5 = "" ∧ dGet RANKS "bogus_stat" = none :=
  ⟨rfl, rfl⟩

/-- C5 amended: for every stat name not in the configured set, the resolver
silently returns the empty-string label (a default), and never raises. -/
theorem C5_amended (stat : String) (v : Nat) (h : dGet RANKS stat = none) :
    get_rank_name stat v = "" := by
  unfold get_rank_name get_rank_name_with
  rw [h]
  rfl

/-- Witness for C5's amended claim at a concrete unconfigured stat. -/
theorem C5_amended_witness : get_rank_name "unconfigured_stat" 7 = "" :=
  C5_amended "unconfigured_stat" 7 (by decide)

/-- C6: on every `_update_stat` call the freshly resolved label is committed
to the in-memory rank store, and the commit is the first entry of the effect
trace — it precedes every external reward/notification call; the resulting
state is identical whether or not the reward collaborator throws (a failed
reward never blocks or rolls back the commit, and `_apply_rank_benefits`
returns normally, logging the exception, so nothing propagates); and on a
promotion with a throwing reward collaborator the exception is logged. -/
theorem C6_commit_before_rewards (rf : Bool) (st : GameState)
    (uid pname stat : String) :
    dGet ((dGet (update_stat rf st uid pname stat).1.ranks uid).getD [])
        stat = some (get_rank_name stat (st.score stat uid)) ∧
      (∃ rest, (update_stat rf st uid pname stat).2 =
        Eff.commitLabel uid stat (get_rank_name stat (st.score stat uid)) ::
          rest) ∧
      (update_stat true st uid pname stat).1 =
        (update_stat false st uid pname stat).1 ∧
      (dGet ((dGet st.ranks uid).getD []) stat ≠
          some (get_rank_name stat (st.score stat uid)) →
        Eff.logException ∈ (update_stat true st uid pname stat).2) := by
  refine ⟨?_, ⟨_, rfl⟩, rfl, ?_⟩
  · show dGet ((dGet (update_stat_t RANKS rf st uid pname stat).1.ranks
        uid).getD []) stat = _
    rw [update_stat_t_fst]
    simp [dGet_dSet_self, get_rank_name, get_rank_name_with]
  · intro h
    show Eff.logException ∈ (update_stat_t RANKS true st uid pname stat).2
    unfold update_stat_t
    simp only [get_rank_name, get_rank_name_with] at h
    simp [h, apply_rank_benefits, get_rank_name_with]

/-- Witness for C6 at a concrete input: a fresh player record, so the call is
a promotion, with the reward collaborator throwing. -/
theorem C6_commit_before_rewards_witness :
    Eff.logException ∈ (update_stat true empty_state "u1" "Alice"
      "mob_kills").2 :=
  (C6_commit_before_rewards true empty_state "u1" "Alice" "mob_kills").2.2.2
    (by decide)

/-- C8: saving any rank store with `on_disable` and loading the resulting JSON
document back with `on_enable` reproduces the identical store (selected and
ranks mappings), with no warning. -/
theorem C8_save_load_roundtrip (s : StoreD) :
    on_enable_load (.parsed (on_disable_data s)) = .ok (false, s) := by
  obtain ⟨sel, rk⟩ := s
  simp [on_enable_load, on_disable_data, dict_get_attr, j_items, dGet,
    load_ranks_values_save]

/-- C3 counterexample: in `chat_state` the player's selected stat is
`ores_mined` whose raw count is 0, yet the chat prefix shows the cached
label "§aMiner", not the Newbie sentinel — `on_player_chat` tests whether ALL
three counts are zero, not the selected stat's count, so the claimed rule
fails for the chat prefix. -/
theorem C3_chat_counterexample :
    chat_state.score "ores_mined" "u1" = 0 ∧
      dGet chat_state.selected "u1" = some "ores_mined" ∧
      on_player_chat_rank chat_state "u1" = "§aMiner" ∧
      "§aMiner" ≠ NEWBIE_TAG :=
  ⟨rfl, rfl, rfl, by decide⟩

/-- C3 amended: the name-tag obeys the claimed rule — raw count 0 for the
selected stat always displays the Newbie sentinel, regardless of cached labels
or other stats; the chat prefix instead shows Newbie exactly when all three
raw counts are zero, and otherwise shows the cached label for the selected
stat (Newbie when absent) even when the selected stat's count is zero. -/
theorem C3_display_newbie :
    (∀ (st : GameState) (uid : String),
        st.score ((dGet st.selected uid).getD "mob_kills") uid = 0 →
          display_rank_name st uid = NEWBIE_TAG) ∧
      (∀ (st : GameState) (uid : String),
        st.score "mob_kills" uid = 0 → st.score "player_kills" uid = 0 →
          st.score "ores_mined" uid = 0 →
          on_player_chat_rank st uid = NEWBIE_TAG) ∧
      (∀ (st : GameState) (uid : String),
        ¬(st.score "mob_kills" uid = 0 ∧ st.score "player_kills" uid = 0 ∧
            st.score "ores_mined" uid = 0) →
          on_player_chat_rank st uid =
            (dGet ((dGet st.ranks uid).getD [])
                ((dGet st.selected uid).getD "mob_kills")).getD NEWBIE_TAG) := by
  refine ⟨?_, ?_, ?_⟩
  · intro st uid h
    unfold display_rank_name
    simp [h]
  · intro st uid h1 h2 h3
    simp [on_player_chat_rank, h1, h2, h3]
  · intro st uid h
    simp only [on_player_chat_rank]
    split
    case isTrue hcond =>
      exfalso
      apply h
      simp only [List.all_cons, List.all_nil, Bool.and_true, Bool.and_eq_true,
        decide_eq_true_eq] at hcond
      exact hcond
    case isFalse hcond => rfl

/-- Witness for C3's amended claim at a concrete input. -/
theorem C3_display_newbie_witness :
    display_rank_name empty_state "u1" = NEWBIE_TAG :=
  C3_display_newbie.1 empty_state "u1" rfl

theorem mem_insert_desc (x a : (String × String) × Nat)
    (l : List ((String × String) × Nat)) :
    a ∈ insert_desc x l ↔ a = x ∨ a ∈ l := by
  induction l with
  | nil => simp [insert_desc]
  | cons q rest ih =>
      by_cases hq : q.2 > x.2
      · simp only [insert_desc, if_pos hq, List.mem_cons, ih]
        tauto
      · simp only [insert_desc, if_neg hq, List.mem_cons]

theorem pairwise_insert_desc (x : (String × String) × Nat)
    (l : List ((String × String) × Nat))
    (h : l.Pairwise (fun a b => b.2 ≤ a.2)) :
    (insert_desc x l).Pairwise (fun a b => b.2 ≤ a.2) := by
  induction l with
  | nil => simp [insert_desc]
  | cons q rest ih =>
      rcases List.pairwise_cons.mp h with ⟨hq, hrest⟩
      by_cases hgt : q.2 > x.2
      · simp only [insert_desc, if_pos hgt]
        refine List.pairwise_cons.mpr ⟨?_, ih hrest⟩
        intro b hb
        rcases (mem_insert_desc x b rest).mp hb with rfl | hbmem
        · omega
        · exact hq b hbmem
      · simp only [insert_desc, if_neg hgt]
        refine List.pairwise_cons.mpr ⟨?_, h⟩
        intro b hb
        rcases List.mem_cons.mp hb with rfl | hbmem
        · omega
        · have := hq b hbmem
          omega

theorem pairwise_sort_desc (l : List ((String × String) × Nat)) :
    (sort_desc l).Pairwise (fun a b => b.2 ≤ a.2) := by
  induction l with
  | nil => simp [sort_desc]
  | cons x rest ih => exact pairwise_insert_desc x _ ih

theorem mem_sort_desc (a : (String × String) × Nat)
    (l : List ((String × String) × Nat)) : a ∈ sort_desc l ↔ a ∈ l := by
  induction l with
  | nil => simp [sort_desc]
  | cons x rest ih => simp [sort_desc, mem_insert_desc, ih]

theorem filter_insert_desc (c : Nat) (x : (String × String) × Nat)
    (l : List ((String × String) × Nat)) :
    (insert_desc x l).filter (fun p => p.2 == c) =
      if x.2 == c then x :: l.filter (fun p => p.2 == c)
      else l.filter (fun p => p.2 == c) := by
  induction l with
  | nil =>
      by_cases hxc : (x.2 == c) = true <;>
        simp [insert_desc, List.filter_cons, hxc]
  | cons q rest ih =>
      by_cases hgt : q.2 > x.2
      · by_cases hqc : (q.2 == c) = true
        · have hxc : ¬((x.2 == c) = true) := by
            simp only [beq_iff_eq] at hqc ⊢
            omega
          simp [insert_desc, hgt, List.filter_cons, hqc, hxc, ih]
        · simp [insert_desc, hgt, List.filter_cons, hqc, ih]
      · by_cases hxc : (x.2 == c) = true <;>
          simp [insert_desc, hgt, List.filter_cons, hxc]

theorem filter_sort_desc (c : Nat) (l : List ((String × String) × Nat)) :
    (sort_desc l).filter (fun p => p.2 == c) =
      l.filter (fun p => p.2 == c) := by
  induction l with
  | nil => rfl
  | cons x rest ih =>
      simp only [sort_desc, filter_insert_desc, List.filter_cons]
      by_cases hxc : (x.2 == c) = true <;> simp [hxc, ih]

theorem leaderboard_scored_mem (st : GameState) (stat : String)
    (p : (String × String) × Nat) (hp : p ∈ leaderboard_scored st stat) :
    0 < p.2 ∧ SbEntry.player p.1.1 p.1.2 ∈ st.entries ∧
      st.score stat p.1.1 = p.2 := by
  unfold leaderboard_scored at hp
  rcases List.mem_filterMap.mp hp with ⟨e, he, hfe⟩
  cases e with
  | player uid pn =>
      dsimp only at hfe
      by_cases hpos : st.score stat uid > 0
      · rw [if_pos hpos] at hfe
        obtain rfl : ((uid, pn), st.score stat uid) = p :=
          Option.some.inj hfe
        exact ⟨hpos, he, rfl⟩
      · rw [if_neg hpos] at hfe
        simp at hfe
  | other i =>
      dsimp only at hfe
      simp at hfe

/-- C7: for every stat and state, the leaderboard keeps at most 5 entries, in
weakly descending count order with ties kept in the scoreboard's enumeration
order (stability of the sort), includes only players with strictly positive
raw counts, and renders the single "No data yet." sentinel line — never an
empty sequence — when no player qualifies. -/
theorem C7_leaderboard (st : GameState) (stat : String) :
    (leaderboard_top st stat).length ≤ 5 ∧
      (leaderboard_top st stat).Pairwise (fun a b => b.2 ≤ a.2) ∧
      (∀ p ∈ leaderboard_top st stat, 0 < p.2 ∧
          SbEntry.player p.1.1 p.1.2 ∈ st.entries ∧
          st.score stat p.1.1 = p.2) ∧
      (∀ c : Nat, (sort_desc (leaderboard_scored st stat)).filter
          (fun p => p.2 == c) =
        (leaderboard_scored st stat).filter (fun p => p.2 == c)) ∧
      (leaderboard_scored st stat = [] →
        leaderboard_lines st stat = ["No data yet."]) ∧
      (leaderboard_lines st stat).length ≤ 5 ∧
      leaderboard_lines st stat ≠ [] := by
  have hlen : (leaderboard_top st stat).length ≤ 5 := by
    simp only [leaderboard_top, List.length_take]
    omega
  refine ⟨hlen, ?_, ?_, ?_, ?_, ?_, ?_⟩
  · exact List.Pairwise.sublist (List.take_sublist 5 _) (pairwise_sort_desc _)
  · intro p hp
    have hp' : p ∈ sort_desc (leaderboard_scored st stat) :=
      List.mem_of_mem_take hp
    exact leaderboard_scored_mem st stat p ((mem_sort_desc p _).mp hp')
  · intro c
    exact filter_sort_desc c _
  · intro h
    simp [leaderboard_lines, leaderboard_top, h, sort_desc]
  · simp only [leaderboard_lines]
    split
    · simp
    · simpa using hlen
  · simp only [leaderboard_lines]
    split
    case isTrue _ => simp
    case isFalse hguard => exact hguard

/-- Witness for C7 at a concrete input: a state with no qualifying player
yields the sentinel line. -/
theorem C7_leaderboard_witness :
    leaderboard_lines empty_state "mob_kills" = ["No data yet."] :=
  (C7_leaderboard empty_state "mob_kills").2.2.2.2.1 rfl

theorem update_stat_ranks_self (table : List (String × List (Nat × String)))
    (rf : Bool) (st : GameState) (uid pname stat : String) :
    dGet ((dGet (update_stat_t table rf st uid pname stat).1.ranks uid).getD [])
      stat = some (get_rank_name_with table stat (st.score stat uid)) := by
  rw [update_stat_t_fst]
  simp [dGet_dSet_self]

theorem update_stat_ranks_ne (table : List (String × List (Nat × String)))
    (rf : Bool) (st : GameState) (uid pname stat stat' : String)
    (hne : stat' ≠ stat) :
    dGet ((dGet (update_stat_t table rf st uid pname stat).1.ranks uid).getD [])
      stat' = dGet ((dGet st.ranks uid).getD []) stat' := by
  rw [update_stat_t_fst]
  simp [dGet_dSet_self, dGet_dSet_ne _ _ _ _ hne]

theorem update_stat_promo_mem (rf : Bool) (st : GameState)
    (uid pname stat : String)
    (h : dGet ((dGet st.ranks uid).getD []) stat ≠
      some (get_rank_name stat (st.score stat uid))) :
    Eff.broadcast (pname ++ " has been promoted to " ++
        get_rank_name stat (st.score stat uid) ++ "!") ∈
      (update_stat rf st uid pname stat).2 ∧
    Eff.title pname "Rank Up!" ("You are now " ++
        get_rank_name stat (st.score stat uid)) ∈
      (update_stat rf st uid pname stat).2 ∧
    ∀ e ∈ apply_rank_benefits rf pname
        (get_rank_name stat (st.score stat uid)) stat,
      e ∈ (update_stat rf st uid pname stat).2 := by
  unfold update_stat update_stat_t
  simp only [get_rank_name, get_rank_name_with] at h
  refine ⟨?_, ?_, ?_⟩
  · simp [h, get_rank_name, get_rank_name_with]
  · simp [h, get_rank_name, get_rank_name_with]
  · intro e he
    simp [h, get_rank_name, get_rank_name_with]
    tauto

theorem join_step_score (rf : Bool) (uid pname : String)
    (acc : GameState × List Eff) (stat : String) :
    (join_step rf uid pname acc stat).1.score = acc.1.score := by
  unfold join_step
  split
  · rfl
  · rfl

theorem join_step_ranks_ne (rf : Bool) (uid pname : String)
    (acc : GameState × List Eff) (stat stat' : String) (hne : stat' ≠ stat) :
    dGet ((dGet (join_step rf uid pname acc stat).1.ranks uid).getD []) stat' =
      dGet ((dGet acc.1.ranks uid).getD []) stat' := by
  unfold join_step
  split
  · exact update_stat_ranks_ne RANKS rf acc.1 uid pname stat stat' hne
  · rfl

theorem join_step_trace_mono (rf : Bool) (uid pname : String)
    (acc : GameState × List Eff) (stat : String) (e : Eff) (he : e ∈ acc.2) :
    e ∈ (join_step rf uid pname acc stat).2 := by
  unfold join_step
  split
  · exact List.mem_append_left _ he
  · exact he

theorem fold_join_preserve (rf : Bool) (uid pname : String) :
    ∀ (stats : List String) (stat : String), stat ∉ stats →
      ∀ acc : GameState × List Eff,
        dGet ((dGet (stats.foldl (join_step rf uid pname) acc).1.ranks
            uid).getD []) stat = dGet ((dGet acc.1.ranks uid).getD []) stat ∧
          (stats.foldl (join_step rf uid pname) acc).1.score = acc.1.score ∧
          ∀ e ∈ acc.2, e ∈ (stats.foldl (join_step rf uid pname) acc).2 := by
  intro stats
  induction stats with
  | nil => exact fun stat _ acc => ⟨rfl, rfl, fun e he => he⟩
  | cons s rest ih =>
      intro stat hni acc
      have hs : stat ≠ s := fun hh => hni (by simp [hh])
      have hrest : stat ∉ rest := fun hh => hni (by simp [hh])
      simp only [List.foldl_cons]
      obtain ⟨h1, h2, h3⟩ := ih stat hrest (join_step rf uid pname acc s)
      refine ⟨?_, ?_, ?_⟩
      · rw [h1, join_step_ranks_ne rf uid pname acc s stat hs]
      · rw [h2, join_step_score]
      · intro e he
        exact h3 e (join_step_trace_mono rf uid pname acc s e he)

theorem fold_join_spec (rf : Bool) (uid pname : String) :
    ∀ (stats : List String) (stat : String), stat ∈ stats → stats.Nodup →
      ∀ acc : GameState × List Eff,
        dGet ((dGet acc.1.ranks uid).getD []) stat = none →
        0 < acc.1.score stat uid →
        dGet ((dGet (stats.foldl (join_step rf uid pname) acc).1.ranks
              uid).getD []) stat =
            some (get_rank_name_with RANKS stat (acc.1.score stat uid)) ∧
          (stats.foldl (join_step rf uid pname) acc).1.score = acc.1.score ∧
          Eff.broadcast (pname ++ " has been promoted to " ++
              get_rank_name_with RANKS stat (acc.1.score stat uid) ++ "!") ∈
            (stats.foldl (join_step rf uid pname) acc).2 ∧
          Eff.title pname "Rank Up!" ("You are now " ++
              get_rank_name_with RANKS stat (acc.1.score stat uid)) ∈
            (stats.foldl (join_step rf uid pname) acc).2 ∧
          ∀ e ∈ apply_rank_benefits rf pname
              (get_rank_name_with RANKS stat (acc.1.score stat uid)) stat,
            e ∈ (stats.foldl (join_step rf uid pname) acc).2 := by
  intro stats
  induction stats with
  | nil =>
      intro stat h
      simp at h
  | cons s rest ih =>
      intro stat hmem hnd acc hnone hpos
      simp only [List.foldl_cons]
      rcases List.mem_cons.mp hmem with rfl | hstat_rest
      · have hfire : join_step rf uid pname acc stat =
            ((update_stat rf acc.1 uid pname stat).1,
              acc.2 ++ (update_stat rf acc.1 uid pname stat).2) := by
          unfold join_step
          rw [if_pos ⟨hnone, hpos⟩]
        have hnotin : stat ∉ rest := (List.nodup_cons.mp hnd).1
        obtain ⟨hp1, hp2, hp3⟩ := fold_join_preserve rf uid pname rest stat
          hnotin (join_step rf uid pname acc stat)
        have hne : dGet ((dGet acc.1.ranks uid).getD []) stat ≠
            some (get_rank_name stat (acc.1.score stat uid)) := by
          rw [hnone]
          simp
        obtain ⟨hb, ht, hben⟩ := update_stat_promo_mem rf acc.1 uid pname
          stat hne
        refine ⟨?_, ?_, ?_, ?_, ?_⟩
        · rw [hp1, hfire]
          exact update_stat_ranks_self RANKS rf acc.1 uid pname stat
        · rw [hp2, hfire]
          rfl
        · apply hp3
          rw [hfire]
          exact List.mem_append_right _ hb
        · apply hp3
          rw [hfire]
          exact List.mem_append_right _ ht
        · intro e he
          apply hp3
          rw [hfire]
          exact List.mem_append_right _ (hben e he)
      · have hsne : stat ≠ s := by
          rintro rfl
          exact (List.nodup_cons.mp hnd).1 hstat_rest
        have hscore' : (join_step rf uid pname acc s).1.score = acc.1.score :=
          join_step_score rf uid pname acc s
        have hnone' : dGet ((dGet (join_step rf uid pname acc s).1.ranks
            uid).getD []) stat = none := by
          rw [join_step_ranks_ne rf uid pname acc s stat hsne]
          exact hnone
        have hpos' : 0 < (join_step rf uid pname acc s).1.score stat uid := by
          rw [hscore']
          exact hpos
        obtain ⟨g1, g2, g3, g4, g5⟩ := ih stat hstat_rest
          (List.nodup_cons.mp hnd).2 (join_step rf uid pname acc s) hnone'
          hpos'
        rw [hscore'] at g1 g2 g3 g4 g5
        exact ⟨g1, g2, g3, g4, g5⟩

/-- C9: on player join, every configured stat with a strictly positive raw
count and no cached label runs the full promotion path — the label is cached,
and the reward dispensation, the server-wide broadcast and the title notice
all appear in the join's effect trace — while no raw counter changes. -/
theorem C9_join_backfills (st : GameState) (uid pname stat : String)
    (hstat : stat ∈ ["mob_kills", "player_kills", "ores_mined"])
    (hpos : 0 < st.score stat uid)
    (hnone : dGet ((dGet st.ranks uid).getD []) stat = none) :
    dGet ((dGet (on_player_join false st uid pname).1.ranks uid).getD [])
        stat = some (get_rank_name stat (st.score stat uid)) ∧
      Eff.broadcast (pname ++ " has been promoted to " ++
          get_rank_name stat (st.score stat uid) ++ "!") ∈
        (on_player_join false st uid pname).2 ∧
      Eff.title pname "Rank Up!" ("You are now " ++
          get_rank_name stat (st.score stat uid)) ∈
        (on_player_join false st uid pname).2 ∧
      (∀ e ∈ apply_rank_benefits false pname
          (get_rank_name stat (st.score stat uid)) stat,
        e ∈ (on_player_join false st uid pname).2) ∧
      (on_player_join false st uid pname).1.score = st.score := by
  have hs1ranks : (join_select st uid).ranks = st.ranks := by
    unfold join_select
    split
    · rfl
    · rfl
  have hs1score : (join_select st uid).score = st.score := by
    unfold join_select
    split
    · rfl
    · rfl
  have hs2score : (join_ranksdef (join_select st uid) uid).score = st.score := by
    unfold join_ranksdef
    split
    · exact hs1score
    · exact hs1score
  have hs2none : dGet ((dGet (join_ranksdef (join_select st uid) uid).ranks
      uid).getD []) stat = none := by
    unfold join_ranksdef
    split
    · rw [hs1ranks]
      exact hnone
    · simp [dGet_dSet_self, dGet]
  have hs2pos : 0 < (join_ranksdef (join_select st uid) uid).score stat uid := by
    rw [hs2score]
    exact hpos
  have hnd : (["mob_kills", "player_kills", "ores_mined"] : List String).Nodup :=
    by decide
  obtain ⟨g1, g2, g3, g4, g5⟩ := fold_join_spec false uid pname
    ["mob_kills", "player_kills", "ores_mined"] stat hstat hnd
    ((join_ranksdef (join_select st uid) uid), []) hs2none hs2pos
  rw [show ((join_ranksdef (join_select st uid) uid, ([] : List Eff)) :
      GameState × List Eff).1.score = st.score from hs2score] at g1 g2 g3 g4 g5
  exact ⟨g1,
    List.mem_cons_of_mem _ (List.mem_append_right _ g3),
    List.mem_cons_of_mem _ (List.mem_append_right _ g4),
    fun e he => List.mem_cons_of_mem _ (List.mem_append_right _ (g5 e he)),
    g2⟩

/-- Witness for C9 at a concrete input: a fresh player joining with 7 mob
kills gets the Hunter label cached and the promotion broadcast fired. -/
theorem C9_join_backfills_witness :
    dGet ((dGet (on_player_join false join_state "u1" "Alice").1.ranks
        "u1").getD []) "mob_kills" =
      some (get_rank_name "mob_kills" (join_state.score "mob_kills" "u1")) ∧
    Eff.broadcast ("Alice" ++ " has been promoted to " ++
        get_rank_name "mob_kills" (join_state.score "mob_kills" "u1") ++
        "!") ∈ (on_player_join false join_state "u1" "Alice").2 := by
  have h := C9_join_backfills join_state "u1" "Alice" "mob_kills" (by decide)
    (by decide) rfl
  exact ⟨h.1, h.2.1⟩

theorem reset_fold_preserve_zero (entries : List SbEntry) :
    ∀ (score : String → String → Nat) (stat k : String), score stat k = 0 →
      (entries.foldl reset_entry_scores score) stat k = 0 := by
  induction entries with
  | nil => exact fun score stat k h => h
  | cons e rest ih =>
      intro score stat k h
      simp only [List.foldl_cons]
      apply ih
      unfold reset_entry_scores
      split
      · rfl
      · exact h

theorem reset_fold_mem_zero (entries : List SbEntry) :
    ∀ (score : String → String → Nat) (e : SbEntry), e ∈ entries →
      ∀ stat, (entries.foldl reset_entry_scores score) stat e.key = 0 := by
  induction entries with
  | nil =>
      intro score e he
      simp at he
  | cons f rest ih =>
      intro score e he stat
      simp only [List.foldl_cons]
      rcases List.mem_cons.mp he with rfl | hmem
      · apply reset_fold_preserve_zero
        unfold reset_entry_scores
        rw [if_pos rfl]
      · exact ih (reset_entry_scores score f) e hmem stat

/-- C10: the `resetranks` command, run with permission and a configured data
file, clears the in-memory selection and rank stores, writes the empty
persisted document, reports success, and zeroes the raw scoreboard count of
every tracked entry for every objective — the external raw counters do not
survive the reset. -/
theorem C10_resetranks (st : GameState) (pname : String) :
    (on_command_resetranks true true st pname).1.selected = [] ∧
      (on_command_resetranks true true st pname).1.ranks = [] ∧
      Eff.writeFile (.jobj [("selected", .jobj []), ("ranks", .jobj [])]) ∈
        (on_command_resetranks true true st pname).2.1 ∧
      (∀ e ∈ st.entries, ∀ stat,
        (on_command_resetranks true true st pname).1.score stat e.key = 0) ∧
      (on_command_resetranks true true st pname).2.2 = true := by
  refine ⟨rfl, rfl, ?_, ?_, rfl⟩
  · show Eff.writeFile (.jobj [("selected", .jobj []), ("ranks", .jobj [])]) ∈
      Eff.writeFile (.jobj [("selected", .jobj []), ("ranks", .jobj [])]) ::
        (_ ++ [Eff.message pname "All ranks have been reset."])
    exact List.mem_cons_self _ _
  · intro e he stat
    show (st.entries.foldl reset_entry_scores st.score) stat e.key = 0
    exact reset_fold_mem_zero st.entries st.score e he stat

/-- Witness for C10 at a concrete input: the tracked player's raw mob-kill
count reads 0 after the reset. -/
theorem C10_resetranks_witness :
    (on_command_resetranks true true reset_state "Admin").1.score "mob_kills"
      (SbEntry.player "u1" "Alice").key = 0 :=
  (C10_resetranks reset_state "Admin").2.2.2.1 (SbEntry.player "u1" "Alice")
    (by simp [reset_state]) "mob_kills"

end RankSystem
